import Mathlib

/-!
Verification of the design-to-grammar compiler in
`src/scripts/design_to_grammar.py`.

The Python source is shallowly embedded below.  Machine integers are
modelled by `Nat` (the data model restricts counts to non-negative
integers), Python's exact-valued float arithmetic inside `is_balanced`
and `format_count` is modelled by exact rationals, dictionaries by
association lists in declaration order, and raised exceptions by an
`Except` result.  The unbounded Python recursion of
`build_grammar_recursive` is modelled with an explicit fuel parameter;
`GErr.outOfFuel` marks fuel exhaustion and is proved unreachable for
acyclic nesting relations.
-/

namespace DesignToGrammar

/-- Error outcomes of the compiler.  `noRootFactors` models the
`ValueError` raised for an empty root set, `keyError` models Python's
uncaught `KeyError` on a missing factor lookup, and `outOfFuel` is the
fuel-exhaustion marker of the embedding (Python: unbounded recursion). -/
inductive GErr where
  | noRootFactors : GErr
  | keyError (key : String) : GErr
  | outOfFuel : GErr
deriving DecidableEq, Repr

deriving instance DecidableEq for Except

/-- A factor record: `categories`, `counts`, and `type`
(source: the input JSON schema documented at the top of
`design_to_grammar.py`). -/
structure Factor where
  categories : List String
  counts : List Nat
  type : String
deriving DecidableEq, Repr

/-- A relationship record, a tagged variant over the `type` field
(source: the `relationships` entries of the input JSON). -/
inductive Rel where
  | nested (parent child : String) : Rel
  | classification (factor classifier : String) : Rel
  | crossed : Rel
deriving DecidableEq, Repr

/-- Python `rel.get("type")`. -/
def Rel.getType : Rel → String
  | .nested _ _ => "nested"
  | .classification _ _ => "classification"
  | .crossed => "crossed"

/-- Python `rel.get("parent")`. -/
def Rel.getParent : Rel → Option String
  | .nested p _ => some p
  | _ => none

/-- Python `rel.get("child")` / `rel["child"]`. -/
def Rel.getChild : Rel → Option String
  | .nested _ c => some c
  | _ => none

/-- Python `rel.get("factor")`. -/
def Rel.getFactor : Rel → Option String
  | .classification f _ => some f
  | _ => none

/-- Python `rel.get("classifier")`. -/
def Rel.getClassifier : Rel → Option String
  | .classification _ c => some c
  | _ => none

/-- A design document: the `factors` mapping (in declaration order;
Python dict keys are unique) and the `relationships` sequence. -/
structure Design where
  factors : List (String × Factor)
  relationships : List Rel

/-- Python dict lookup `factors[name]` / `name in factors`, on the
declaration-ordered association list. -/
def lookupFactor (factors : List (String × Factor)) (name : String) : Option Factor :=
  List.lookup name factors

/-- Exact subtraction on rationals, written with `Rat.divInt` so that it
evaluates by kernel reduction; `qsub_eq_sub` below proves it equal to
the standard subtraction on `ℚ`. -/
def qsub (a b : ℚ) : ℚ :=
  Rat.divInt (a.num * (b.den : Int) - b.num * (a.den : Int)) ((a.den : Int) * (b.den : Int))

/-- Exact division on rationals, written with `Rat.divInt` so that it
evaluates by kernel reduction; `qdiv_eq_div` below proves it equal to
the standard division on `ℚ`. -/
def qdiv (a b : ℚ) : ℚ :=
  Rat.divInt (a.num * (b.den : Int)) (b.num * (a.den : Int))

/-- Round `num / den` to the nearest integer, ties to even: the rounding
used by Python's fixed-point float formatting. -/
def round_half_even (num den : Nat) : Nat :=
  let q := num / den
  let r := num % den
  if 2 * r < den then q
  else if den < 2 * r then q + 1
  else if q % 2 = 0 then q else q + 1

/-- Python `f"{num/den:.1f}"`: the value rendered with exactly one
decimal digit.  Modelled by exact rational rounding (half to even);
this agrees with CPython's binary-float formatting on all inputs used
in this development (the two can differ only at exact `.x5` ties, where
the nearest double decides the direction). -/
def format_fixed1 (num den : Nat) : String :=
  let t := round_half_even (num * 10) den
  toString (t / 10) ++ "." ++ toString (t % 10)

/-- Python `str.rstrip(c)`: remove all trailing occurrences of `c`. -/
def rstrip (s : String) (c : Char) : String :=
  String.mk ((s.data.reverse.dropWhile (fun x => x = c)).reverse)

/-- Source: `format_count` (design_to_grammar.py lines 38-54).  Note the
source applies `.rstrip('0').rstrip('.')` to the string that already
ends in `'m'`/`'k'`. -/
def format_count (count : Nat) (approximate : Bool) : String :=
  if approximate && decide (1000 ≤ count) then
    if decide (1000000 ≤ count) then
      rstrip (rstrip ("~" ++ format_fixed1 count 1000000 ++ "m") '0') '.'
    else
      rstrip (rstrip ("~" ++ format_fixed1 count 1000 ++ "k") '0') '.'
  else
    toString count

/-- Source: `is_balanced` (design_to_grammar.py lines 57-75).  The float
expressions `sum(counts)/len(counts)` and
`abs(c - avg) / avg <= tolerance` are modelled by exact rationals;
`mkRat`, `qsub` and `qdiv` are the kernel-computable renderings of
`/`, `-` and `/` on `ℚ` (see `qsub_eq_sub`, `qdiv_eq_div`).  The Python
default `tolerance=0.1` is passed explicitly as `mkRat 1 10` by the
caller `format_factor_counts`. -/
def is_balanced (counts : List Nat) (tolerance : ℚ) : Bool :=
  if counts.isEmpty || counts.length == 1 then true
  else
    let avg : ℚ := mkRat (Int.ofNat counts.sum) counts.length
    if avg == 0 then true
    else counts.all (fun c => decide (qdiv |qsub ((c : Nat) : ℚ) avg| avg ≤ tolerance))

/-- Python `str.capitalize()`: first character upper-cased, the rest
lower-cased (ASCII, which covers the grammar's factor names). -/
def word_capitalize (w : List Char) : String :=
  match w with
  | [] => ""
  | c :: cs => String.mk (c.toUpper :: cs.map Char.toLower)

/-- Splits a character list at spaces (the separators are dropped;
empty chunks are kept and filtered by the caller, matching Python's
`split()`). -/
def split_chars : List Char → List (List Char)
  | [] => [[]]
  | c :: rest =>
    let r := split_chars rest
    if c = ' ' then [] :: r
    else
      match r with
      | [] => [[c]]
      | w :: ws => (c :: w) :: ws

/-- Source: `to_camel_case` (design_to_grammar.py lines 78-90):
`name.replace('_', ' ').split()` then capitalize each word and
concatenate.  The single-character replace is modelled by a character
map and `split()` by splitting on spaces and dropping empty words (the
names in play contain no other whitespace). -/
def to_camel_case (name : String) : String :=
  let replaced := name.data.map (fun c => if c = '_' then ' ' else c)
  let words := (split_chars replaced).filter (fun w => w ≠ [])
  String.join (words.map word_capitalize)

/-- Source: `format_factor_counts` (design_to_grammar.py lines 93-118). -/
def format_factor_counts (factor_name : String) (categories : List String)
    (counts : List Nat) (approximate : Bool) : String :=
  let n_categories := categories.length
  let cname := to_camel_case factor_name
  if is_balanced counts (mkRat 1 10) then
    cname ++ "(" ++ format_count n_categories false ++ ")"
  else
    cname ++ "[" ++ String.intercalate "|" (counts.map (fun c => format_count c approximate)) ++ "]"

/-- Source: `find_root_factors` (design_to_grammar.py lines 121-148).
The source collects `child` values of `nested` relationships and
`classifier` values of `classification` relationships into Python sets
(`crossed` relationships are recognized and skipped) and returns
`list(all_factors - child_factors - classifier_factors)`.  Python
iterates that set in hash order, which is randomized per process; this
embedding determinizes the order to the factor mapping's declaration
order (the membership is identical; see the C3 analysis). -/
def find_root_factors (factors : List (String × Factor)) (relationships : List Rel) :
    List String :=
  let child_factors := relationships.filterMap
    (fun rel => if rel.getType == "nested" then rel.getChild else none)
  let classifier_factors := relationships.filterMap
    (fun rel => if rel.getType == "classification" then rel.getClassifier else none)
  (factors.map Prod.fst).filter
    (fun name => !(child_factors.contains name) && !(classifier_factors.contains name))

/-- Source: `get_children` (design_to_grammar.py lines 151-158): the
`child` values of relationships whose `type` equals `rel_type` and whose
`parent` equals `factor`, in declaration order.  The Python default
`rel_type="nested"` is passed explicitly by the callers. -/
def get_children (factor : String) (relationships : List Rel) (rel_type : String) :
    List String :=
  relationships.filterMap
    (fun rel =>
      if rel.getType == rel_type && rel.getParent == some factor then rel.getChild else none)

/-- Source: `get_classifier` (design_to_grammar.py lines 161-166): the
`classifier` of the first `classification` relationship whose `factor`
equals the given factor, if any. -/
def get_classifier (factor : String) (relationships : List Rel) : Option String :=
  match relationships.find?
      (fun rel => rel.getType == "classification" && rel.getFactor == some factor) with
  | some rel => rel.getClassifier
  | none => none

/-- Source: the classifier-annotation step of `build_grammar_recursive`
(design_to_grammar.py lines 209-218): `if classifier and classifier in
factors:` append `" : "` plus the classifier's name in CamelCase with
its number of categories.  Python's truthiness test on the classifier
string is the `c == ""` case. -/
def classifier_suffix (factors : List (String × Factor)) (relationships : List Rel)
    (factor : String) : String :=
  match get_classifier factor relationships with
  | none => ""
  | some c =>
    if c == "" then ""
    else
      match lookupFactor factors c with
      | none => ""
      | some classifier_data =>
        " : " ++ to_camel_case c ++ "(" ++ toString classifier_data.categories.length ++ ")"

/-- Left-to-right effectful map over `Except`, modelling a Python list
comprehension in which the first raised exception escapes. -/
def mapME (g : String → Except GErr String) : List String → Except GErr (List String)
  | [] => .ok []
  | a :: as =>
    match g a with
    | .error e => .error e
    | .ok b =>
      match mapME g as with
      | .error e => .error e
      | .ok bs => .ok (b :: bs)

/-- Source: `build_grammar_recursive` (design_to_grammar.py lines
169-220).  The factor token uses approximate mode only when
`use_approximate` is requested and the factor's `type` is
`"classification"` (line 195); nested children are composed with
`" > "`; finally the classifier annotation, if any, is appended.
`factors[factor]` on a missing factor models Python's `KeyError`; the
fuel argument only converts Python's unbounded recursion into
structural recursion. -/
def build_grammar_recursive :
    Nat → List (String × Factor) → List Rel → Bool → String → Except GErr String
  | 0, _, _, _, _ => .error .outOfFuel
  | fuel + 1, factors, relationships, use_approximate, factor =>
    match lookupFactor factors factor with
    | none => .error (.keyError factor)
    | some factor_data =>
      let is_classification := factor_data.type == "classification"
      let token := format_factor_counts factor factor_data.categories factor_data.counts
        (use_approximate && is_classification)
      let children := get_children factor relationships "nested"
      match mapME (fun child =>
          build_grammar_recursive fuel factors relationships use_approximate child) children with
      | .error e => .error e
      | .ok child_grammars =>
        let grammar :=
          if children.isEmpty then token
          else token ++ " > " ++ String.intercalate " > " child_grammars
        .ok (grammar ++ classifier_suffix factors relationships factor)

/-- The body of `build_grammar_recursive` before the classifier
annotation is appended (design_to_grammar.py lines 184-207): the factor
token plus the nested-children composition.  `build_grammar_decompose`
proves that `build_grammar_recursive` is this body followed by
`classifier_suffix`. -/
def build_grammar_body :
    Nat → List (String × Factor) → List Rel → Bool → String → Except GErr String
  | 0, _, _, _, _ => .error .outOfFuel
  | fuel + 1, factors, relationships, use_approximate, factor =>
    match lookupFactor factors factor with
    | none => .error (.keyError factor)
    | some factor_data =>
      let is_classification := factor_data.type == "classification"
      let token := format_factor_counts factor factor_data.categories factor_data.counts
        (use_approximate && is_classification)
      let children := get_children factor relationships "nested"
      match mapME (fun child =>
          build_grammar_recursive fuel factors relationships use_approximate child) children with
      | .error e => .error e
      | .ok child_grammars =>
        .ok (if children.isEmpty then token
             else token ++ " > " ++ String.intercalate " > " child_grammars)

/-- Source: `convert_design_to_grammar` (design_to_grammar.py lines
223-253).  The source calls `build_grammar_recursive(root, factors,
relationships)` with the Python default `use_approximate=False` (line
245), and joins multiple root grammars with the literal separator of
line 253, whose bytes are U+00C3 U+2014 (a double-encoding of the
crossing sign; see the C3 analysis). -/
def convert_design_to_grammar (fuel : Nat) (design : Design) : Except GErr String :=
  let factors := design.factors
  let relationships := design.relationships
  let roots := find_root_factors factors relationships
  if roots.isEmpty then .error .noRootFactors
  else
    match mapME (fun root => build_grammar_recursive fuel factors relationships false root)
        roots with
    | .error e => .error e
    | .ok root_grammars =>
      match root_grammars with
      | [g] => .ok g
      | gs => .ok (String.intercalate " Ã— " gs)

/-- Whether an `Except` result is a returned value rather than a raised
error. -/
def isOkE : Except GErr String → Bool
  | .ok _ => true
  | .error _ => false

/-- Reachability along nested-child edges: `NestedReach rels a b` holds
when `b` is reachable from `a` by following `nested` relationships
parent-to-child (including the empty path). -/
def NestedReach (relationships : List Rel) : String → String → Prop :=
  Relation.ReflTransGen (fun a b => b ∈ get_children a relationships "nested")

/-- The compilation of a design runs out of fuel at every fuel bound:
the embedding's rendering of non-termination of the Python recursion. -/
def diverges_on (d : Design) : Prop :=
  ∀ fuel, convert_design_to_grammar fuel d = Except.error GErr.outOfFuel

/-- Modelled directly from the spec's words for the C9 comparison:
counts are balanced when every count's absolute deviation from the
arithmetic mean is within 10% of that mean, with an empty or
single-element list and a zero mean balanced by definition. -/
def balanced_per_spec (counts : List Nat) : Prop :=
  counts = [] ∨ counts.length = 1 ∨
    (counts.sum : ℚ) / (counts.length : ℚ) = 0 ∨
    ∀ c ∈ counts,
      |(c : ℚ) - (counts.sum : ℚ) / (counts.length : ℚ)| ≤
        ((counts.sum : ℚ) / (counts.length : ℚ)) / 10

/-- Example factor: a balanced two-level experimental factor. -/
def exGenotype : Factor := ⟨["WT", "KO"], [500, 500], "experimental"⟩

/-- Example factor: a balanced four-level replicate factor. -/
def exSample : Factor := ⟨["s1", "s2", "s3", "s4"], [10, 10, 10, 11], "replicate"⟩

/-- Example factor: a classification factor with three categories and
unbalanced counts. -/
def exCellType : Factor := ⟨["t1", "t2", "t3"], [100, 200, 1000], "classification"⟩

/-- Example factor mapping for the nesting-plus-classification chain of
the spec's testable properties. -/
def exFactors : List (String × Factor) :=
  [("genotype", exGenotype), ("sample", exSample), ("cell_type", exCellType)]

/-- Example relationships: `sample` nested in `genotype` and classified
by `cell_type`. -/
def exRels : List Rel :=
  [Rel.nested "genotype" "sample", Rel.classification "sample" "cell_type"]

/-- A single experimental factor with large unbalanced counts, used to
observe that non-classification factors always render exact counts. -/
def approxFactors : List (String × Factor) :=
  [("cells", ⟨["a", "b"], [50000, 90000], "experimental"⟩)]

/-- Two unrelated factors: a document with two roots. -/
def twoRootDesign : Design :=
  ⟨[("alpha", ⟨["x"], [5], "experimental"⟩),
    ("beta", ⟨["y", "z"], [5, 5], "experimental"⟩)], []⟩

/-- A factor whose `categories` and `counts` have different lengths
(two categories, three counts). -/
def mismatchDesign : Design :=
  ⟨[("x", ⟨["a", "b"], [1, 2, 3], "experimental"⟩)], []⟩

/-- A document whose root set is non-empty (`r`) but whose nested
relation contains the cycle `a → b → a` reachable from the root. -/
def cycDesign : Design :=
  ⟨[("r", ⟨["c1"], [1], "experimental"⟩),
    ("a", ⟨["c1"], [1], "experimental"⟩),
    ("b", ⟨["c1"], [1], "experimental"⟩)],
   [Rel.nested "r" "a", Rel.nested "a" "b", Rel.nested "b" "a"]⟩

/-- A document in which every factor is the child of a nested
relationship, so the root set is empty. -/
def allChildrenDesign : Design :=
  ⟨[("a", ⟨["c1"], [1], "experimental"⟩),
    ("b", ⟨["c1"], [1], "experimental"⟩)],
   [Rel.nested "a" "b", Rel.nested "b" "a"]⟩

/-- A factor mapping whose only factor is annotated by a classifier that
does not appear in the mapping. -/
def ghostFactors : List (String × Factor) :=
  [("x", ⟨["a", "b"], [10, 10], "experimental"⟩)]

/-- The relationship referring to the undefined classifier `ghost`. -/
def ghostRels : List Rel := [Rel.classification "x" "ghost"]

/-- A factor mapping containing a factor under the empty-string name,
used as a classifier. -/
def emptyNameFactors : List (String × Factor) :=
  [("x", ⟨["a", "b"], [1, 1], "experimental"⟩),
   ("", ⟨["u", "v"], [2, 2], "experimental"⟩)]

/-- The relationship classifying `x` by the empty-string factor. -/
def emptyNameRels : List Rel := [Rel.classification "x" ""]

/-- A document whose root has a nested child absent from the factor
mapping. -/
def danglingChildDesign : Design :=
  ⟨[("root", ⟨["a", "b"], [1, 1], "experimental"⟩)],
   [Rel.nested "root" "missing"]⟩

/-- The kernel-computable subtraction agrees with the standard
subtraction on `ℚ`. -/
theorem qsub_eq_sub (a b : ℚ) : qsub a b = a - b := by
  have ha : ((a.den : ℚ)) ≠ 0 := Nat.cast_ne_zero.mpr a.den_nz
  have hb : ((b.den : ℚ)) ≠ 0 := Nat.cast_ne_zero.mpr b.den_nz
  unfold qsub
  rw [Rat.divInt_eq_div]
  push_cast
  conv_rhs => rw [← Rat.num_div_den a, ← Rat.num_div_den b]
  field_simp
  ring

/-- The kernel-computable division agrees with the standard division on
`ℚ`. -/
theorem qdiv_eq_div (a b : ℚ) : qdiv a b = a / b := by
  rcases eq_or_ne b 0 with hb0 | hb0
  · subst hb0
    simp [qdiv, Rat.divInt_eq_div]
  · have ha : ((a.den : ℚ)) ≠ 0 := Nat.cast_ne_zero.mpr a.den_nz
    have hbd : ((b.den : ℚ)) ≠ 0 := Nat.cast_ne_zero.mpr b.den_nz
    have hbn : ((b.num : ℚ)) ≠ 0 := by
      exact_mod_cast Rat.num_ne_zero.mpr hb0
    unfold qdiv
    rw [Rat.divInt_eq_div]
    push_cast
    conv_rhs => rw [← Rat.num_div_den a, ← Rat.num_div_den b]
    field_simp
    ring_nf
    tauto

/-- The per-count test of `is_balanced` is the spec's deviation bound
when the mean is positive. -/
theorem balance_cond_iff (c : Nat) (μ : ℚ) (hμpos : 0 < μ) :
    (qdiv |qsub ((c : Nat) : ℚ) μ| μ ≤ mkRat 1 10) ↔ |(c : ℚ) - μ| ≤ μ / 10 := by
  rw [qdiv_eq_div, qsub_eq_sub, Rat.mkRat_eq_div]
  push_cast
  rw [div_le_div_iff₀ hμpos (by norm_num : (0 : ℚ) < 10),
    le_div_iff₀ (by norm_num : (0 : ℚ) < 10)]
  constructor <;> intro h <;> linarith

/-- An erroneous `mapME` result comes from an erroneous element. -/
theorem mapME_error_mem {g : String → Except GErr String} {l : List String} {e : GErr}
    (h : mapME g l = .error e) : ∃ a ∈ l, g a = .error e := by
  induction l with
  | nil => simp [mapME] at h
  | cons a as ih =>
    simp only [mapME] at h
    split at h
    · next heq =>
      cases h
      exact ⟨a, by simp, heq⟩
    · split at h
      · next heq =>
        cases h
        obtain ⟨x, hx, hgx⟩ := ih heq
        exact ⟨x, by simp [hx], hgx⟩
      · cases h

/-- A successful `mapME` result means every element succeeded. -/
theorem mapME_ok_mem {g : String → Except GErr String} {l : List String} {bs : List String}
    (h : mapME g l = .ok bs) : ∀ a ∈ l, ∃ b, g a = .ok b := by
  induction l generalizing bs with
  | nil => intro a ha; cases ha
  | cons a as ih =>
    intro x hx
    simp only [mapME] at h
    split at h
    · cases h
    · next b heq =>
      split at h
      · cases h
      · next bs' heq' =>
        rcases List.mem_cons.mp hx with hxa | hxas
        · exact ⟨b, hxa ▸ heq⟩
        · exact ih heq' x hxas

/-- `build_grammar_recursive` never raises the empty-root error: that
error belongs to `convert_design_to_grammar` alone. -/
theorem build_no_noRootFactors (fuel : Nat) (fs : List (String × Factor)) (rels : List Rel)
    (ua : Bool) (f : String) :
    build_grammar_recursive fuel fs rels ua f ≠ Except.error GErr.noRootFactors := by
  induction fuel generalizing f with
  | zero => simp [build_grammar_recursive]
  | succ n ih =>
    simp only [build_grammar_recursive]
    split
    · simp
    · split
      · next e heq =>
        intro hcon
        injection hcon with he
        subst he
        obtain ⟨c, _, hgc⟩ := mapME_error_mem heq
        exact ih c hgc
      · simp

/-- Decomposition of the composer: `build_grammar_recursive` is
`build_grammar_body` followed by the classifier annotation
(design_to_grammar.py line 218 appends the suffix to the grammar built
by lines 184-207). -/
theorem build_grammar_decompose (fuel : Nat) (fs : List (String × Factor)) (rels : List Rel)
    (ua : Bool) (f : String) :
    build_grammar_recursive fuel fs rels ua f =
      Except.map (fun g => g ++ classifier_suffix fs rels f)
        (build_grammar_body fuel fs rels ua f) := by
  cases fuel with
  | zero => rfl
  | succ n =>
    simp only [build_grammar_recursive, build_grammar_body]
    split
    · rfl
    · split
      · rfl
      · rfl

/-- A successful recursive build implies every factor reachable along
nested-child edges is present in the factor mapping. -/
theorem build_ok_reach (fuel : Nat) (fs : List (String × Factor)) (rels : List Rel)
    (ua : Bool) :
    ∀ f s, build_grammar_recursive fuel fs rels ua f = Except.ok s →
      ∀ x, NestedReach rels f x → (lookupFactor fs x).isSome = true := by
  induction fuel with
  | zero =>
    intro f s h
    simp [build_grammar_recursive] at h
  | succ n ih =>
    intro f s h x hreach
    rcases Relation.ReflTransGen.cases_head hreach with heq | ⟨c, hc, hreach'⟩
    · subst heq
      simp only [build_grammar_recursive] at h
      split at h
      · cases h
      · next fd hfd => simp [hfd]
    · simp only [build_grammar_recursive] at h
      split at h
      · cases h
      · split at h
        · cases h
        · next cs hm =>
          obtain ⟨b, hb⟩ := mapME_ok_mem hm c hc
          exact ih c b hb x hreach'

/-- C1: the compiler is a pure function of the factor mapping, the
relationship sequence and the `use_approximate` flag (in the embedding,
`build_grammar_recursive` is literally such a function and passes the
flag unchanged to every recursive call; `convert_design_to_grammar`
invokes it with the Python default `False`).  For any flag value, a
factor whose `type` is not `"classification"` (experimental, replicate,
batch, ...) opens its subtree string with the exact-count token: the
token computed with approximate mode off. -/
theorem c1_nonclassification_exact_token (fuel : Nat) (fs : List (String × Factor))
    (rels : List Rel) (ua : Bool) (f : String) (fd : Factor) (s : String)
    (hlk : lookupFactor fs f = some fd)
    (hty : fd.type ≠ "classification")
    (hok : build_grammar_recursive fuel fs rels ua f = Except.ok s) :
    ∃ rest, s = format_factor_counts f fd.categories fd.counts false ++ rest := by
  cases fuel with
  | zero => simp [build_grammar_recursive] at hok
  | succ n =>
    have hb : (fd.type == "classification") = false := beq_eq_false_iff_ne.mpr hty
    simp only [build_grammar_recursive, hlk, hb, Bool.and_false] at hok
    split at hok
    · cases hok
    · next cs hm =>
      injection hok with hs
      by_cases hch : (get_children f rels "nested").isEmpty
      · refine ⟨classifier_suffix fs rels f, ?_⟩
        rw [← hs]
        simp [hch]
      · refine ⟨" > " ++ String.intercalate " > " cs ++ classifier_suffix fs rels f, ?_⟩
        rw [← hs]
        simp [hch, String.append_assoc]

/-- C1 witness: an experimental factor with count 50000 renders the
exact `50000`, not `~50k`, even with the approximate flag enabled. -/
theorem c1_witness :
    build_grammar_recursive 1 approxFactors [] true "cells" = Except.ok "Cells[50000|90000]" ∧
    ∃ rest, "Cells[50000|90000]" =
      format_factor_counts "cells" ["a", "b"] [50000, 90000] false ++ rest :=
  ⟨by decide,
   c1_nonclassification_exact_token 1 approxFactors [] true "cells"
     ⟨["a", "b"], [50000, 90000], "experimental"⟩ "Cells[50000|90000]"
     (by decide) (by decide) (by decide)⟩

/-- C2 (code bug): `format_count` applies `.rstrip('0').rstrip('.')`
after the `k`/`m` suffix has been appended, so the trailing `.0` is
never stripped: `format_count(2000, approximate=True)` is `"~2.0k"`,
not the `"~2k"` stated by the spec, and `format_count(21000, True)` is
`"~21.0k"`, contradicting the function's own docstring example
`"~21k"`. -/
theorem c2_rstrip_after_suffix :
    format_count 2000 true = "~2.0k" ∧
    format_count 1500 true = "~1.5k" ∧
    format_count 21000 true = "~21.0k" ∧
    format_count 2500000 true = "~2.5m" ∧
    format_count 2000000 true = "~2.0m" ∧
    format_count 999 true = "999" ∧
    format_count 2000 false = "2000" := by
  decide

/-- C3 (code bug): with two roots the source joins the root strings
with the literal `" Ã— "` of design_to_grammar.py line 253 (bytes
`c3 83 e2 80 94`, a double-encoded crossing sign), not `" × "`; the
embedding shows the separator on a concrete two-root document.  (The
root order used here is the embedding's determinization; the source
iterates a hash-ordered Python set.) -/
theorem c3_crossing_separator :
    convert_design_to_grammar 2 twoRootDesign =
      Except.ok ("Alpha(1)" ++ " Ã— " ++ "Beta(2)") ∧
    convert_design_to_grammar 2 ⟨[("alpha", ⟨["x"], [5], "experimental"⟩)], []⟩ =
      Except.ok "Alpha(1)" := by
  decide

/-- C4 counterexample: `cycDesign` passes the root check (root set
`["r"]` is non-empty) yet its nested relation has the reachable cycle
`a → b → a`, and the compilation exhausts every fuel bound — the
embedding's rendering of the Python recursion never terminating. -/
theorem cyc_build_ab (n : Nat) :
    build_grammar_recursive n cycDesign.factors cycDesign.relationships false "a" =
      Except.error GErr.outOfFuel ∧
    build_grammar_recursive n cycDesign.factors cycDesign.relationships false "b" =
      Except.error GErr.outOfFuel := by
  induction n with
  | zero => exact ⟨rfl, rfl⟩
  | succ n ih =>
    constructor
    · have hlk : lookupFactor cycDesign.factors "a" =
          some ⟨["c1"], [1], "experimental"⟩ := by decide
      have hch : get_children "a" cycDesign.relationships "nested" = ["b"] := by decide
      simp only [build_grammar_recursive, hlk, hch, mapME, ih.2]
    · have hlk : lookupFactor cycDesign.factors "b" =
          some ⟨["c1"], [1], "experimental"⟩ := by decide
      have hch : get_children "b" cycDesign.relationships "nested" = ["a"] := by decide
      simp only [build_grammar_recursive, hlk, hch, mapME, ih.1]

/-- The cyclic document's root also exhausts every fuel bound. -/
theorem cyc_build_r (n : Nat) :
    build_grammar_recursive n cycDesign.factors cycDesign.relationships false "r" =
      Except.error GErr.outOfFuel := by
  cases n with
  | zero => rfl
  | succ n =>
    have hlk : lookupFactor cycDesign.factors "r" =
        some ⟨["c1"], [1], "experimental"⟩ := by decide
    have hch : get_children "r" cycDesign.relationships "nested" = ["a"] := by decide
    simp only [build_grammar_recursive, hlk, hch, mapME, (cyc_build_ab n).1]

/-- C4 is false as stated: an accepted document (non-empty root set)
on which the recursive build diverges. -/
theorem c4_cex_reachable_cycle_diverges :
    find_root_factors cycDesign.factors cycDesign.relationships = ["r"] ∧
    diverges_on cycDesign := by
  refine ⟨by decide, fun fuel => ?_⟩
  have hroots : find_root_factors cycDesign.factors cycDesign.relationships = ["r"] := by
    decide
  simp only [convert_design_to_grammar, hroots, mapME, cyc_build_r fuel]
  rfl

/-- C4 amended: termination holds when the nested relation admits a
rank decreasing from parent to child (acyclicity); then the recursion
depth is bounded by the rank of the start factor, and any fuel
exceeding that rank is never exhausted. -/
theorem c4_amended_rank_terminates (fuel : Nat) (fs : List (String × Factor))
    (rels : List Rel) (ua : Bool) (rank : String → Nat)
    (hrank : ∀ p c, c ∈ get_children p rels "nested" → rank c < rank p) :
    ∀ f, rank f < fuel →
      build_grammar_recursive fuel fs rels ua f ≠ Except.error GErr.outOfFuel := by
  induction fuel with
  | zero => intro f hf; exact absurd hf (Nat.not_lt_zero _)
  | succ n ih =>
    intro f hf
    simp only [build_grammar_recursive]
    split
    · simp
    · split
      · next e heq =>
        intro hcon
        injection hcon with he
        subst he
        obtain ⟨c, hc, hgc⟩ := mapME_error_mem heq
        have hcf : rank c < rank f := hrank f c hc
        have hcn : rank c < n := Nat.lt_of_lt_of_le hcf (Nat.lt_succ_iff.mp hf)
        exact ih c hcn hgc
      · simp

/-- C4 witness: the rank bound discharged on a concrete document with
no nested relationships. -/
theorem c4_witness :
    build_grammar_recursive 1 exFactors [] false "genotype" ≠
      Except.error GErr.outOfFuel :=
  c4_amended_rank_terminates 1 exFactors [] false (fun _ => 0)
    (fun _ c hc => absurd hc (List.not_mem_nil c)) "genotype" (by decide)

/-- C5 counterexample: a document whose single factor has two
categories but three counts compiles to a grammar string; no error of
any kind is reported. -/
theorem c5_cex_mismatch_compiles :
    isOkE (convert_design_to_grammar 5 mismatchDesign) = true := by
  decide

/-- C5 amended: the compiler performs no `categories`/`counts` length
validation; a mismatched factor is formatted from `len(categories)`
(balanced notation) or from the counts list as-is (unbalanced
notation), and compilation succeeds. -/
theorem c5_amended_no_length_validation :
    (("x", (⟨["a", "b"], [1, 2, 3], "experimental"⟩ : Factor)) ∈ mismatchDesign.factors) ∧
    (["a", "b"] : List String).length ≠ ([1, 2, 3] : List Nat).length ∧
    convert_design_to_grammar 5 mismatchDesign = Except.ok "X[1|2|3]" := by
  decide

/-- C6: `convert_design_to_grammar` raises the no-root-factors error
exactly when the computed root set (factor names minus nested children
minus classifiers) is empty; otherwise the result is a string or a
different error, never this one. -/
theorem c6_noroot_iff (fuel : Nat) (d : Design) :
    convert_design_to_grammar fuel d = Except.error GErr.noRootFactors ↔
      find_root_factors d.factors d.relationships = [] := by
  constructor
  · intro h
    simp only [convert_design_to_grammar] at h
    split at h
    · next hcond => exact List.isEmpty_iff.mp hcond
    · split at h
      · next e heq =>
        injection h with he
        subst he
        obtain ⟨c, _, hgc⟩ := mapME_error_mem heq
        exact absurd hgc (build_no_noRootFactors fuel d.factors d.relationships false c)
      · split at h <;> cases h
  · intro h
    simp [convert_design_to_grammar, h]

/-- C6 instance: the all-children (cyclic) document raises the
no-root-factors error rather than returning a string. -/
theorem c6_witness :
    convert_design_to_grammar 5 allChildrenDesign = Except.error GErr.noRootFactors :=
  (c6_noroot_iff 5 allChildrenDesign).mpr (by decide)

/-- C7: when the classifier named by a classification relationship is
absent from the factor mapping, the composer appends no classifier
annotation and produces exactly the annotation-free composition
(`build_grammar_body`); the dangling reference raises nothing. -/
theorem c7_dangling_classifier_skipped (fuel : Nat) (fs : List (String × Factor))
    (rels : List Rel) (ua : Bool) (f c : String)
    (h1 : get_classifier f rels = some c)
    (h2 : lookupFactor fs c = none) :
    build_grammar_recursive fuel fs rels ua f = build_grammar_body fuel fs rels ua f := by
  rw [build_grammar_decompose]
  have hsuf : classifier_suffix fs rels f = "" := by
    simp only [classifier_suffix, h1]
    split
    · rfl
    · simp [h2]
  rw [hsuf]
  cases build_grammar_body fuel fs rels ua f with
  | error e => rfl
  | ok g => simp [Except.map]

/-- C7 witness: the `ghost` classifier is not defined as a factor; the
compilation still succeeds and yields the annotation-free token. -/
theorem c7_witness :
    build_grammar_recursive 3 ghostFactors ghostRels false "x" =
      build_grammar_body 3 ghostFactors ghostRels false "x" ∧
    build_grammar_recursive 3 ghostFactors ghostRels false "x" = Except.ok "X(2)" :=
  ⟨c7_dangling_classifier_skipped 3 ghostFactors ghostRels false "x" "ghost"
     (by decide) (by decide),
   by decide⟩

/-- C8 counterexample: a classifier whose name is the empty string and
which does exist in the factor mapping is skipped by the source's
truthiness guard (`if classifier and classifier in factors`), so no
`" : "` annotation is appended even though the classifier exists in the
document. -/
theorem c8_cex_empty_classifier_name :
    get_classifier "x" emptyNameRels = some "" ∧
    (lookupFactor emptyNameFactors "").isSome = true ∧
    build_grammar_recursive 3 emptyNameFactors emptyNameRels false "x" = Except.ok "X(2)" := by
  decide

/-- C8 amended: when a factor's classifier has a nonempty name and
exists in the document, the composer appends the classification
operator `" : "` and the classifier token `CamelName(number of
categories)` — never approximate and never the bracket form, whatever
the classifier's own counts — after the nesting composition of the
factor's children. -/
theorem c8_amended_classifier_annotation_form (fuel : Nat) (fs : List (String × Factor))
    (rels : List Rel) (ua : Bool) (f c : String) (cd : Factor)
    (h1 : get_classifier f rels = some c)
    (h2 : c ≠ "")
    (h3 : lookupFactor fs c = some cd) :
    build_grammar_recursive fuel fs rels ua f =
      Except.map
        (fun g => g ++ (" : " ++ to_camel_case c ++ "(" ++ toString cd.categories.length ++ ")"))
        (build_grammar_body fuel fs rels ua f) := by
  rw [build_grammar_decompose]
  have hsuf : classifier_suffix fs rels f =
      " : " ++ to_camel_case c ++ "(" ++ toString cd.categories.length ++ ")" := by
    have hb : (c == "") = false := beq_eq_false_iff_ne.mpr h2
    simp only [classifier_suffix, h1, hb, h3]
    rfl
  rw [hsuf]

/-- C8 witness: the spec's nesting-chain example, with the classifier's
own counts unbalanced: the annotation is still `CellType(3)`, and the
root composition is `Genotype(2) > Sample(4) : CellType(3)`. -/
theorem c8_witness :
    build_grammar_recursive 5 exFactors exRels false "sample" =
      Except.map
        (fun g => g ++
          (" : " ++ to_camel_case "cell_type" ++ "(" ++
            toString exCellType.categories.length ++ ")"))
        (build_grammar_body 5 exFactors exRels false "sample") ∧
    build_grammar_recursive 5 exFactors exRels false "genotype" =
      Except.ok "Genotype(2) > Sample(4) : CellType(3)" :=
  ⟨c8_amended_classifier_annotation_form 5 exFactors exRels false "sample" "cell_type"
     exCellType (by decide) (by decide) (by decide),
   by decide⟩

/-- C9: `is_balanced` holds exactly when every count's absolute
deviation from the arithmetic mean is within 10% of that mean, with an
empty or single-element list and a zero mean balanced by definition;
the spec's five examples evaluate as stated. -/
theorem c9_balance_characterization :
    (∀ counts : List Nat,
        is_balanced counts (mkRat 1 10) = true ↔ balanced_per_spec counts) ∧
    is_balanced [100, 100, 100] (mkRat 1 10) = true ∧
    is_balanced [100, 100, 130] (mkRat 1 10) = false ∧
    is_balanced [] (mkRat 1 10) = true ∧
    is_balanced [0, 0] (mkRat 1 10) = true ∧
    is_balanced [100, 200] (mkRat 1 10) = false := by
  refine ⟨?_, by decide, by decide, by decide, by decide, by decide⟩
  intro counts
  by_cases h0 : counts = []
  · subst h0
    simp [is_balanced, balanced_per_spec]
  by_cases h1 : counts.length = 1
  · simp [is_balanced, h1, balanced_per_spec]
  have hEmp : counts.isEmpty = false := by simp [List.isEmpty_iff, h0]
  have hLen1 : (counts.length == 1) = false := by simp [h1]
  have hmk : mkRat (Int.ofNat counts.sum) counts.length =
      (counts.sum : ℚ) / (counts.length : ℚ) := by
    rw [Rat.mkRat_eq_div, Int.ofNat_eq_natCast, Int.cast_natCast]
  simp only [is_balanced, balanced_per_spec, hEmp, hLen1, Bool.false_or,
    Bool.false_eq_true, if_false, hmk]
  set μ := (counts.sum : ℚ) / (counts.length : ℚ) with hμdef
  by_cases hz : μ = 0
  · simp [hz]
  · have hf : (μ == 0) = false := beq_eq_false_iff_ne.mpr hz
    have hμpos : 0 < μ := by
      have hnn : 0 ≤ μ := by
        rw [hμdef]
        exact div_nonneg (Nat.cast_nonneg _) (Nat.cast_nonneg _)
      exact lt_of_le_of_ne hnn (Ne.symm hz)
    simp only [hf, Bool.false_eq_true, if_false, List.all_eq_true, decide_eq_true_eq]
    constructor
    · intro hall
      right; right; right
      intro c hc
      exact (balance_cond_iff c μ hμpos).mp (hall c hc)
    · intro hspec c hc
      rcases hspec with h | h | h | h
      · exact absurd h h0
      · exact absurd h h1
      · exact absurd h hz
      · exact (balance_cond_iff c μ hμpos).mpr (h c hc)

/-- C10: a nested relationship whose child is absent from the factor
mapping is not skipped: if such a factor is reachable from a root, the
whole compilation raises (Python: an uncaught `KeyError` from
`factors[factor]`) instead of returning a grammar string. -/
theorem c10_dangling_nested_child_raises (fuel : Nat) (d : Design) (r x : String)
    (h1 : r ∈ find_root_factors d.factors d.relationships)
    (h2 : NestedReach d.relationships r x)
    (h3 : lookupFactor d.factors x = none) :
    isOkE (convert_design_to_grammar fuel d) = false := by
  have hne : (find_root_factors d.factors d.relationships).isEmpty = false := by
    simp [List.isEmpty_iff]
    exact List.ne_nil_of_mem h1
  simp only [convert_design_to_grammar, hne, if_false]
  cases hm : mapME
      (fun root => build_grammar_recursive fuel d.factors d.relationships false root)
      (find_root_factors d.factors d.relationships) with
  | error e => simp [isOkE]
  | ok gs =>
    exfalso
    obtain ⟨s, hs⟩ := mapME_ok_mem hm r h1
    have hsome := build_ok_reach fuel d.factors d.relationships false r s hs x h2
    rw [h3] at hsome
    cases hsome

/-- C10 witness: the root's nested child `missing` is undefined; the
compilation raises rather than returning a string. -/
theorem c10_witness :
    isOkE (convert_design_to_grammar 5 danglingChildDesign) = false :=
  c10_dangling_nested_child_raises 5 danglingChildDesign "root" "missing"
    (by decide)
    (Relation.ReflTransGen.single (by decide))
    (by decide)

end DesignToGrammar
